import Mathlib

set_option maxRecDepth 40000

/-!
Shallow embedding of the website-growth-analyzer server pipeline.

The definitions below are translated from the JavaScript sources:
* `FirecrawlService.cleanContent`, `FirecrawlService.extractContent`,
  `FirecrawlService.crawlWebsite` (the crawler client),
* `AnthropicService.parseAnalysisResponse` (the model-reply parser),
* `DatabaseService.saveWebsiteSubmission`, `DatabaseService.extractDomain`
  (the lead store),
* the `POST /analyze` route handler and the admin `requireAdmin` middleware.

JavaScript strings are modelled as `List Char` / `String`, JSON values as an
inductive `Json` with integer numerics, and the JS number NaN as `none` in
`Option Int`.  External platform functions used by the code (`JSON.parse`,
`new URL`, the regex engine) are embedded as executable Lean functions whose
behaviour on the inputs relevant here matches the platform's.
-/

/-- The set of characters matched by the JavaScript regex class `\s`
(whitespace), used by `.replace(/\s+/g, ' ')` and by `String.prototype.trim`. -/
def jsWhitespace (c : Char) : Bool :=
  c = ' ' ∨ c = '\t' ∨ c = '\n' ∨ c = '\r' ∨ c = '\x0b' ∨ c = '\x0c' ∨
  c = '\u00A0' ∨ c = '\u1680' ∨ ('\u2000' ≤ c ∧ c ≤ '\u200A') ∨
  c = '\u2028' ∨ c = '\u2029' ∨ c = '\u202F' ∨ c = '\u205F' ∨
  c = '\u3000' ∨ c = '\uFEFF'

/-- Characters stripped by `cleanContent`'s second replace:
the ranges `[\u0000-\u001F]` and `[\u007F-\u009F]`. -/
def isCtlChar (c : Char) : Bool :=
  c ≤ '\x1f' ∨ ('\x7f' ≤ c ∧ c ≤ '\u009f')

/-- Worker of `collapseWs`.  The flag records whether the previous input
character belonged to the current whitespace run (in which case further
whitespace is dropped rather than emitting another space). -/
def collapseWsGo (inRun : Bool) : List Char → List Char
  | [] => []
  | c :: t =>
    if jsWhitespace c then
      if inRun then collapseWsGo true t else ' ' :: collapseWsGo true t
    else
      c :: collapseWsGo false t

/-- `.replace(/\s+/g, ' ')`: each maximal run of JS whitespace becomes a
single space. -/
def collapseWs (l : List Char) : List Char :=
  collapseWsGo false l

/-- Removes trailing characters satisfying `p` (the mirror image of
`List.dropWhile`, used for the right half of `trim`). -/
def dropWhileEnd (p : Char → Bool) : List Char → List Char
  | [] => []
  | c :: t =>
    let r := dropWhileEnd p t
    if r.isEmpty ∧ p c then [] else c :: r

/-- `String.prototype.trim`: strip leading and trailing JS whitespace. -/
def jsTrim (l : List Char) : List Char :=
  dropWhileEnd jsWhitespace (l.dropWhile jsWhitespace)

/-- `FirecrawlService.cleanContent` (src/unnamed/part_004, lines 139-151):
collapse whitespace runs to single spaces, delete the control ranges,
trim, then truncate to 50,000 characters; the empty/absent input short-circuits
to the empty string. -/
def cleanContent (s : String) : String :=
  if s.data.isEmpty then ""
  else
    String.mk
      ((jsTrim ((collapseWs s.data).filter (fun c => !isCtlChar c))).take 50000)

/-- Adjacent-pair relation used to state "no two consecutive spaces". -/
def notTwoSpaces (a b : Char) : Prop := ¬(a = ' ' ∧ b = ' ')

instance : DecidableRel notTwoSpaces := fun a b =>
  inferInstanceAs (Decidable (¬(a = ' ' ∧ b = ' ')))

/-! ## JSON values and `JSON.parse` -/

/-- JSON values as produced by `JSON.parse`.  Numerics are modelled as
integers (the scores exchanged by this program are integral). -/
inductive Json where
  | null
  | bool (b : Bool)
  | num (n : Int)
  | str (s : String)
  | arr (xs : List Json)
  | obj (fields : List (String × Json))

/-- JavaScript truthiness of a JSON value: `null`, `false`, `0` and the
empty string are falsy; arrays and objects are always truthy. -/
def jsTruthy : Json → Bool
  | .null => false
  | .bool b => b
  | .num n => n ≠ 0
  | .str s => !s.isEmpty
  | .arr _ => true
  | .obj _ => true

/-- Property read `o[k]` on a parsed JSON value; `none` is `undefined`.
`JSON.parse` keeps the last of duplicate keys, hence the left fold. -/
def getField (j : Json) (k : String) : Option Json :=
  match j with
  | .obj fs => fs.foldl (fun acc p => if p.1 = k then some p.2 else acc) none
  | _ => none

/-- Truthiness of a possibly-undefined value. -/
def jsTruthyOpt : Option Json → Bool
  | some j => jsTruthy j
  | none => false

/-- `value || []` as applied to the categories/recommendations fields. -/
def jsonOrEmptyArr (j : Json) : Json :=
  if jsTruthy j then j else .arr []

/-- Numeric value of a list of decimal digits. -/
def digitsToNat (l : List Char) : Nat :=
  l.foldl (fun n c => n * 10 + (c.toNat - '0'.toNat)) 0

/-- ToNumber on a string (`Number(s)` semantics restricted to optional-sign
integer literals): surrounding whitespace is ignored, the empty string is 0,
anything non-integral is NaN (`none`). -/
def strToNumber (s : String) : Option Int :=
  let l := jsTrim s.data
  match l with
  | [] => some 0
  | '-' :: ds =>
    if ds ≠ [] ∧ ds.all (fun c => c.isDigit) then
      some (-(digitsToNat ds : Int))
    else none
  | ds =>
    if ds.all (fun c => c.isDigit) then some ((digitsToNat ds : Nat) : Int)
    else none

/-- JavaScript ToNumber of a JSON value; `none` is NaN.  Arrays coerce
through their joined string form: `[]` is 0, a singleton coerces like its
element, longer arrays and objects are NaN. -/
def jsToNumberJ : Json → Option Int
  | .null => some 0
  | .bool b => some (if b then 1 else 0)
  | .num n => some n
  | .str s => strToNumber s
  | .arr [] => some 0
  | .arr [x] => jsToNumberJ x
  | .arr (_ :: _ :: _) => none
  | .obj _ => none

/-- ToNumber of a possibly-undefined value (`undefined` is NaN). -/
def jsToNumber : Option Json → Option Int
  | none => none
  | some j => jsToNumberJ j

/-- Whitespace skipped by the JSON grammar. -/
def jsonSkipWs (l : List Char) : List Char :=
  l.dropWhile (fun c => c = ' ' ∨ c = '\t' ∨ c = '\n' ∨ c = '\r')

/-- One escape character of a JSON string literal. -/
def jsonEscChar (c : Char) : Option Char :=
  if c = 'n' then some '\n'
  else if c = 't' then some '\t'
  else if c = 'r' then some '\r'
  else if c = 'b' then some '\x08'
  else if c = 'f' then some '\x0c'
  else if c = '"' then some '"'
  else if c = '\\' then some '\\'
  else if c = '/' then some '/'
  else none

/-- Body of a JSON string literal (after the opening quote); returns the
decoded characters and the input following the closing quote. -/
def jsonParseStrBody : List Char → Option (List Char × List Char)
  | [] => none
  | '"' :: t => some ([], t)
  | '\\' :: c :: t =>
    match jsonEscChar c, jsonParseStrBody t with
    | some e, some (cs, rest) => some (e :: cs, rest)
    | _, _ => none
  | c :: t =>
    match jsonParseStrBody t with
    | some (cs, rest) => some (c :: cs, rest)
    | none => none

/-- A JSON number token (optional minus, digits; fractional and exponent
forms are outside this embedding). -/
def jsonParseNum (l : List Char) : Option (Int × List Char) :=
  match l with
  | '-' :: t =>
    let ds := t.takeWhile (fun c => c.isDigit)
    if ds.isEmpty then none
    else some (-(digitsToNat ds : Int), t.drop ds.length)
  | t =>
    let ds := t.takeWhile (fun c => c.isDigit)
    if ds.isEmpty then none
    else some (((digitsToNat ds : Nat) : Int), t.drop ds.length)

/-- Grammar production selector for the fuelled JSON parser. -/
inductive JsonProd where
  | val
  | members
  | elems

/-- Recursive-descent `JSON.parse`, fuelled, one structural recursion over
the three productions: a value, the members of an object (result wrapped in
`Json.obj`), or the elements of an array (wrapped in `Json.arr`).  Returns
the parsed value and the unread remainder. -/
def jsonParseStep : Nat → JsonProd → List Char → Option (Json × List Char)
  | 0, _, _ => none
  | fuel + 1, .val, l =>
    match jsonSkipWs l with
    | '{' :: t =>
      match jsonSkipWs t with
      | '}' :: r => some (.obj [], r)
      | t' =>
        match jsonParseStep fuel .members t' with
        | some (fs, r) => some (fs, r)
        | none => none
    | '[' :: t =>
      match jsonSkipWs t with
      | ']' :: r => some (.arr [], r)
      | t' =>
        match jsonParseStep fuel .elems t' with
        | some (xs, r) => some (xs, r)
        | none => none
    | '"' :: t =>
      match jsonParseStrBody t with
      | some (cs, r) => some (.str (String.mk cs), r)
      | none => none
    | 't' :: 'r' :: 'u' :: 'e' :: r => some (.bool true, r)
    | 'f' :: 'a' :: 'l' :: 's' :: 'e' :: r => some (.bool false, r)
    | 'n' :: 'u' :: 'l' :: 'l' :: r => some (.null, r)
    | t =>
      match jsonParseNum t with
      | some (n, r) => some (.num n, r)
      | none => none
  | fuel + 1, .members, l =>
    match jsonSkipWs l with
    | '"' :: t =>
      match jsonParseStrBody t with
      | some (kcs, r1) =>
        match jsonSkipWs r1 with
        | ':' :: r2 =>
          match jsonParseStep fuel .val r2 with
          | some (v, r3) =>
            match jsonSkipWs r3 with
            | ',' :: r4 =>
              match jsonParseStep fuel .members r4 with
              | some (.obj fs, r5) => some (.obj ((String.mk kcs, v) :: fs), r5)
              | _ => none
            | '}' :: r4 => some (.obj [(String.mk kcs, v)], r4)
            | _ => none
          | none => none
        | _ => none
      | none => none
    | _ => none
  | fuel + 1, .elems, l =>
    match jsonParseStep fuel .val l with
    | some (v, r1) =>
      match jsonSkipWs r1 with
      | ',' :: r2 =>
        match jsonParseStep fuel .elems r2 with
        | some (.arr xs, r3) => some (.arr (v :: xs), r3)
        | _ => none
      | ']' :: r2 => some (.arr [v], r2)
      | _ => none
    | none => none

/-- `JSON.parse`: the whole input must be one JSON value (with surrounding
whitespace allowed). -/
def jsonParse (s : String) : Option Json :=
  match jsonParseStep (s.data.length + 1) .val s.data with
  | some (j, rest) => if jsonSkipWs rest = [] then some j else none
  | none => none

/-! ## `AnthropicService.parseAnalysisResponse` -/

/-- Drops one leading newline, if present (the `\n?` tail of the fence
regexes). -/
def dropOptNl : List Char → List Char
  | '\n' :: r => r
  | r => r

/-- Worker of `removePat`, fuelled with at least one unit per input
character (each step either keeps or consumes at least one character). -/
def removePatGo (p : Char) (ps : List Char) : Nat → List Char → List Char
  | 0, l => l
  | _ + 1, [] => []
  | fuel + 1, c :: t =>
    if (p :: ps).isPrefixOf (c :: t) then
      removePatGo p ps fuel (dropOptNl (t.drop ps.length))
    else
      c :: removePatGo p ps fuel t

/-- Global replace of the pattern `p :: ps` followed by an optional newline
with the empty string (one left-to-right pass, as a JS
`.replace(/pat\n?/g, '')`). -/
def removePat (p : Char) (ps : List Char) (l : List Char) : List Char :=
  removePatGo p ps l.length l

/-- The two fence-stripping passes
`.replace(/```json\n?/g, '').replace(/```\n?/g, '')`. -/
def stripCodeFences (l : List Char) : List Char :=
  removePat '`' ['`', '`']
    (removePat '`' ['`', '`', 'j', 's', 'o', 'n'] l)

/-- `cleanResponse.match(/\x7b[\s\S]*\x7d/)`: the span from the first
opening brace to the last closing brace, if the latter does not precede the
former. -/
def jsonSpan (l : List Char) : Option (List Char) :=
  match l.dropWhile (fun c => c ≠ '{') with
  | [] => none
  | pre =>
    match pre.reverse.dropWhile (fun c => c ≠ '}') with
    | [] => none
    | rev => some rev.reverse

/-- The analysis object assembled by `parseAnalysisResponse`: the clamped
score (`none` is the JS number NaN), the summary/feedback values and the raw
categories and recommendations values.  -/
structure AnalysisResultJs where
  score : Option Int
  summary : Json
  feedback : Json
  categories : Json
  recommendations : Json

/-- The deterministic fallback analysis returned from the catch block of
`parseAnalysisResponse`. -/
def fallbackAnalysisResult : AnalysisResultJs :=
  { score := some 50
    summary := .str "Analysis completed but response parsing failed. Please try again."
    feedback := .str "The website analysis encountered a technical issue. The website appears to have basic functionality but we recommend running the analysis again for detailed insights."
    categories := .arr [.obj
      [("name", .str "Analysis Error"),
       ("score", .num 50),
       ("feedback", .str "Technical issue prevented detailed analysis. Please try again.")]]
    recommendations := .arr [.obj
      [("priority", .str "High"),
       ("action", .str "Re-run the analysis for detailed insights"),
       ("impact", .str "Get specific recommendations for growth optimization"),
       ("effort", .str "Low")]] }

/-- The trim / fence-strip / brace-span / `JSON.parse` front half of
`parseAnalysisResponse`. -/
def responseJson (response : String) : Option Json :=
  match jsonSpan (stripCodeFences (jsTrim response.data)) with
  | none => none
  | some span => jsonParse (String.mk span)

/-- `Math.min(100, Math.max(0, v))` on a JS number (NaN propagates). -/
def clampScore (v : Option Int) : Option Int :=
  v.map (fun n => min 100 (max 0 n))

/-- `parsedResult.summary || 'Analysis completed successfully.'` -/
def summaryOrDefault (v : Option Json) : Json :=
  match v with
  | some j => if jsTruthy j then j else .str "Analysis completed successfully."
  | none => .str "Analysis completed successfully."

/-- The try-block of `parseAnalysisResponse` (src/unnamed/part_002, lines
347-376): `none` means the block threw (no JSON span, `JSON.parse` failure,
or a falsy required field) and control reached the catch block. -/
def parseAnalysisResponseCore (response : String) : Option AnalysisResultJs :=
  match responseJson response with
  | none => none
  | some j =>
    if jsTruthyOpt (getField j "score") ∧ jsTruthyOpt (getField j "categories") ∧
        jsTruthyOpt (getField j "recommendations") then
      some
        { score := clampScore (jsToNumber (getField j "score"))
          summary := summaryOrDefault (getField j "summary")
          feedback := summaryOrDefault (getField j "summary")
          categories := (getField j "categories").getD .null
          recommendations := (getField j "recommendations").getD .null }
    else none

/-- `AnthropicService.parseAnalysisResponse`: the parsed analysis, or the
deterministic fallback when the try-block throws. -/
def parseAnalysisResponse (response : String) : AnalysisResultJs :=
  (parseAnalysisResponseCore response).getD fallbackAnalysisResult

/-- Formalisation of the spec sentence "0 ≤ score ≤ 100": a NaN score does
not qualify. -/
def scoreInRangeB (a : AnalysisResultJs) : Bool :=
  match a.score with
  | some s => decide (0 ≤ s) && decide (s ≤ 100)
  | none => false

/-! ## `FirecrawlService` -/

/-- Worker of `stripHtmlTags`, fuelled with one unit per input character. -/
def stripHtmlTagsGo : Nat → List Char → List Char
  | 0, l => l
  | _ + 1, [] => []
  | fuel + 1, c :: t =>
    if c = '<' then
      match t.dropWhile (fun x => x ≠ '>') with
      | [] => '<' :: stripHtmlTagsGo fuel t
      | _ :: after => ' ' :: stripHtmlTagsGo fuel after
    else
      c :: stripHtmlTagsGo fuel t

/-- `.replace(/<[^>]*>/g, ' ')` — each tag (a `<`, any non-`>` run, then the
nearest `>`) becomes a single space; a `<` with no later `>` stays literal. -/
def stripHtmlTags (l : List Char) : List Char :=
  stripHtmlTagsGo l.length l

/-- Truthiness of an optional JS string (`undefined` and `''` are falsy). -/
def jsTruthyStr : Option String → Bool
  | some s => !s.isEmpty
  | none => false

/-- The `data.data` document returned by the Firecrawl scrape endpoint. -/
structure FcDoc where
  markdown : Option String
  content : Option String
  text : Option String
  html : Option String
  title : Option String
  description : Option String
  statusCode : Option Nat

/-- `FirecrawlService.extractContent`: preferred source order
markdown, content, text, then tag-stripped HTML, finally cleaned. -/
def extractContent (d : FcDoc) : String :=
  let content :=
    if jsTruthyStr d.markdown then d.markdown.getD ""
    else if jsTruthyStr d.content then d.content.getD ""
    else if jsTruthyStr d.text then d.text.getD ""
    else if jsTruthyStr d.html then
      String.mk (jsTrim (collapseWs (stripHtmlTags (d.html.getD "").data)))
    else ""
  cleanContent content

/-- The upstream HTTP response as seen by `crawlWebsite` after `fetch`. -/
structure FcResponse where
  ok : Bool
  status : Nat
  errorField : Option String
  success : Bool
  data : Option FcDoc

/-- The crawl payload built on success (the `crawlTime` wall-clock string is
not modelled). -/
structure CrawledContent where
  url : String
  content : String
  title : String
  description : String
  statusCode : Nat
  contentLength : Nat

/-- Error message thrown for too-little usable text. -/
def insufficientContentMsg : String :=
  "Insufficient content extracted from website. The page might be empty or have access restrictions."

/-- `a || b` on a string and a default (empty strings are falsy). -/
def jsOrStr (a : Option String) (b : String) : String :=
  match a with
  | some s => if s.isEmpty then b else s
  | none => b

/-- `a || b` on numbers (`0` is falsy). -/
def jsOrNat (a : Option Nat) (b : Nat) : Nat :=
  match a with
  | some n => if n = 0 then b else n
  | none => b

/-- `FirecrawlService.crawlWebsite` (src/unnamed/part_004, lines 21-106)
from the point the upstream reply is available: HTTP-status triage, response
structure validation, content extraction and the minimum-length guard.
Errors are the thrown `Error` messages. -/
def crawlWebsite (url : String) (resp : FcResponse) : Except String CrawledContent :=
  if resp.ok = false then
    if resp.status = 401 then
      .error "Invalid Firecrawl API key. Please check your FIRECRAWL_API_KEY environment variable."
    else if resp.status = 429 then
      .error "Firecrawl rate limit exceeded. Please try again later."
    else if resp.status = 400 then
      .error ("Invalid URL or crawl request: " ++ (jsOrStr resp.errorField "Bad request"))
    else
      .error ("Firecrawl API error: " ++ toString resp.status ++ " - " ++
        (jsOrStr resp.errorField "Unknown error"))
  else
    match resp.data with
    | none => .error "Invalid response from Firecrawl API"
    | some doc =>
      if resp.success = false then .error "Invalid response from Firecrawl API"
      else
        let content := extractContent doc
        if content.data.isEmpty ∨ content.data.length < 100 then
          .error insufficientContentMsg
        else
          .ok { url := url
                content := content
                title := jsOrStr doc.title "Unknown Title"
                description := jsOrStr doc.description ""
                statusCode := jsOrNat doc.statusCode 200
                contentLength := content.data.length }

/-! ## `DatabaseService.extractDomain` -/

/-- Replace the first occurrence of `pat` with the empty string (JS
`String.prototype.replace` with a string pattern); no occurrence leaves the
input unchanged. -/
def removeFirstOcc (pat : List Char) : List Char → List Char
  | [] => []
  | c :: t =>
    if pat.isPrefixOf (c :: t) then (c :: t).drop pat.length
    else c :: removeFirstOcc pat t

/-- Whether `pat` occurs as a contiguous substring. -/
def hasSubstr (pat : List Char) : List Char → Bool
  | [] => pat.isEmpty
  | c :: t => pat.isPrefixOf (c :: t) || hasSubstr pat t

/-- Host component of `new URL(url)`, modelled for http/https URLs: the
authority runs to the first `/`, `?` or `#`; an optional `:port` suffix is
dropped; the parse throws (`none`) when the scheme is absent or the host is
empty or contains a character outside the plain host alphabet.  (Other
schemes and userinfo/IDN forms are outside this embedding.) -/
def parseURLHost (url : String) : Option String :=
  let cs := url.data
  let afterScheme :=
    if "https://".data.isPrefixOf cs then some (cs.drop 8)
    else if "http://".data.isPrefixOf cs then some (cs.drop 7)
    else none
  match afterScheme with
  | none => none
  | some rest =>
    let authority := rest.takeWhile (fun c => c ≠ '/' ∧ c ≠ '?' ∧ c ≠ '#')
    let host := authority.takeWhile (fun c => c ≠ ':')
    if host.isEmpty then none
    else if host.all (fun c => c.isAlphanum ∨ c = '.' ∨ c = '-' ∨ c = '_') then
      some (String.mk host)
    else none

/-- The catch-branch regex `^https?:\/\/(www\.)?` of `extractDomain`: the
optional `www.` is only consumed when a scheme matched. -/
def stripSchemeWww (l : List Char) : List Char :=
  let afterScheme :=
    if "https://".data.isPrefixOf l then some (l.drop 8)
    else if "http://".data.isPrefixOf l then some (l.drop 7)
    else none
  match afterScheme with
  | none => l
  | some rest =>
    if "www.".data.isPrefixOf rest then rest.drop 4 else rest

/-- `DatabaseService.extractDomain` (src/server/services/database.js, lines
212-220): hostname of the parsed URL with the first `'www.'` occurrence
removed, falling back on parse failure to a regex strip of the scheme and
`www.` prefix followed by `split('/')[0]`. -/
def extractDomain (url : String) : String :=
  match parseURLHost url with
  | some h => String.mk (removeFirstOcc "www.".data h.data)
  | none => String.mk ((stripSchemeWww url.data).takeWhile (fun c => c ≠ '/'))

/-- The spec's reading of domain derivation on a parsed host: strip a
*leading* `www.` label.  Modelled from the spec sentence "parse URL, take
host, strip a leading \"www.\" label" for comparison with `extractDomain`. -/
def specLeadingWwwStrip (h : String) : String :=
  if "www.".data.isPrefixOf h.data then String.mk (h.data.drop 4) else h

/-- The spec's reading of the fallback branch: strip the scheme and `www.`
prefix, then take everything before the first path separator. -/
def specFallbackDomain (url : String) : String :=
  String.mk ((stripSchemeWww url.data).takeWhile (fun c => c ≠ '/'))

/-! ## `DatabaseService.saveWebsiteSubmission` -/

mutual

/-- Minimal JSON serialiser for `JSON.stringify` as used when persisting the
categories/recommendations blobs. -/
def jsonStringify : Json → String
  | .null => "null"
  | .bool b => if b then "true" else "false"
  | .num n => toString n
  | .str s => "\"" ++ String.mk (jsonEscapeList s.data) ++ "\""
  | .arr xs => "[" ++ jsonStringifyList xs ++ "]"
  | .obj fs => "\x7b" ++ jsonStringifyFields fs ++ "\x7d"

def jsonEscapeList : List Char → List Char
  | [] => []
  | c :: t =>
    (if c = '"' then ['\\', '"']
     else if c = '\\' then ['\\', '\\']
     else if c = '\n' then ['\\', 'n']
     else if c = '\t' then ['\\', 't']
     else if c = '\r' then ['\\', 'r']
     else [c]) ++ jsonEscapeList t

def jsonStringifyList : List Json → String
  | [] => ""
  | [x] => jsonStringify x
  | x :: y :: t => jsonStringify x ++ "," ++ jsonStringifyList (y :: t)

def jsonStringifyFields : List (String × Json) → String
  | [] => ""
  | [(k, v)] => "\"" ++ String.mk (jsonEscapeList k.data) ++ "\":" ++ jsonStringify v
  | (k, v) :: f :: t =>
    "\"" ++ String.mk (jsonEscapeList k.data) ++ "\":" ++ jsonStringify v ++ "," ++
    jsonStringifyFields (f :: t)

end

/-- A timestamp split into its calendar day (`DATE(created_at)`) and the
time of day, so that the per-day unique index is expressible. -/
structure DbTime where
  day : Nat
  tod : Nat
deriving DecidableEq

/-- One row of the `website_submissions` table. -/
structure DbRow where
  id : Nat
  url : String
  domain : String
  growth_score : Option Int
  analysis_summary : Option String
  analysis_categories : String
  recommendations : String
  content_length : Nat
  created_at : DbTime
  analyzed_at : DbTime
deriving DecidableEq

/-- The table plus the `SERIAL` id sequence. -/
structure DbState where
  rows : List DbRow
  nextId : Nat
deriving DecidableEq

/-- The `submissionData.analysis` object passed to the store. -/
structure AnalysisFields where
  score : Option Int
  summary : Option String
  feedback : Option String
  categories : Option Json
  recommendations : Option Json

/-- The `submissionData` argument of `saveWebsiteSubmission`. -/
structure SubmissionData where
  url : String
  analysis : AnalysisFields
  contentLength : Option Nat

/-- Predicate of the `(url, DATE(created_at))` unique index. -/
def rowMatches (u : String) (d : Nat) (r : DbRow) : Bool :=
  r.url = u ∧ r.created_at.day = d

/-- `submissionData.analysis.summary || submissionData.analysis.feedback`. -/
def summaryValue (a : AnalysisFields) : Option String :=
  match a.summary with
  | some s => if s.isEmpty then a.feedback else some s
  | none => a.feedback

/-- `JSON.stringify(submissionData.analysis.categories || [])`. -/
def categoriesValue (a : AnalysisFields) : String :=
  jsonStringify (match a.categories with
    | some j => jsonOrEmptyArr j
    | none => .arr [])

/-- `JSON.stringify(submissionData.recommendations field || [])`. -/
def recommendationsValue (a : AnalysisFields) : String :=
  jsonStringify (match a.recommendations with
    | some j => jsonOrEmptyArr j
    | none => .arr [])

/-- `submissionData.metadata?.contentLength || 0`. -/
def contentLengthValue (s : SubmissionData) : Nat :=
  jsOrNat s.contentLength 0

/-- `DatabaseService.saveWebsiteSubmission` (src/server/services/database.js,
lines 79-163): attempt the insert; on the `23505` unique violation for
`(url, DATE(created_at))` run the same-day `UPDATE` of the mutable analysis
fields instead.  Returns the new state and the `RETURNING id`. -/
def saveWebsiteSubmission (st : DbState) (sub : SubmissionData) (now : DbTime) :
    DbState × Option Nat :=
  let domain := extractDomain sub.url
  if st.rows.any (rowMatches sub.url now.day) then
    let rows' := st.rows.map (fun r =>
      if rowMatches sub.url now.day r then
        { r with
          growth_score := sub.analysis.score
          analysis_summary := summaryValue sub.analysis
          analysis_categories := categoriesValue sub.analysis
          recommendations := recommendationsValue sub.analysis
          content_length := contentLengthValue sub
          analyzed_at := now }
      else r)
    (⟨rows', st.nextId⟩, (rows'.find? (rowMatches sub.url now.day)).map (·.id))
  else
    let newRow : DbRow :=
      { id := st.nextId
        url := sub.url
        domain := domain
        growth_score := sub.analysis.score
        analysis_summary := summaryValue sub.analysis
        analysis_categories := categoriesValue sub.analysis
        recommendations := recommendationsValue sub.analysis
        content_length := contentLengthValue sub
        created_at := now
        analyzed_at := now }
    (⟨st.rows ++ [newRow], st.nextId + 1⟩, some st.nextId)

/-- Number of stored rows for a `(url, day)` pair. -/
def countRows (rows : List DbRow) (u : String) (d : Nat) : Nat :=
  rows.countP (rowMatches u d)

/-- The consistency guaranteed by the unique index
`idx_submissions_url_date`: at most one row per `(url, day)`. -/
def dbInvariant (rows : List DbRow) : Prop :=
  ∀ u d, countRows rows u d ≤ 1

/-! ## The `POST /analyze` route -/

/-- Character class `[-a-zA-Z0-9@:%._\+~#=]` of the URL regex. -/
def urlClassA (c : Char) : Bool :=
  c.isAlphanum ∨ c = '-' ∨ c = '@' ∨ c = ':' ∨ c = '%' ∨ c = '.' ∨ c = '_' ∨
  c = '+' ∨ c = '~' ∨ c = '#' ∨ c = '='

/-- Character class `[a-zA-Z0-9()]` of the URL regex. -/
def urlClassB (c : Char) : Bool :=
  c.isAlphanum ∨ c = '(' ∨ c = ')'

/-- Character class `[-a-zA-Z0-9()@:%_\+.~#?&//=]` of the URL regex. -/
def urlClassC (c : Char) : Bool :=
  c.isAlphanum ∨ c = '-' ∨ c = '(' ∨ c = ')' ∨ c = '@' ∨ c = ':' ∨ c = '%' ∨
  c = '_' ∨ c = '+' ∨ c = '.' ∨ c = '~' ∨ c = '#' ∨ c = '?' ∨ c = '&' ∨
  c = '/' ∨ c = '='

/-- Regex word characters, for the `\b` boundary. -/
def isWordChar (c : Char) : Bool :=
  c.isAlphanum ∨ c = '_'

/-- The `\b` condition between the last accepted character and the next
input character (end of input counts as non-word). -/
def wordBoundary (before : Char) (after : Option Char) : Bool :=
  isWordChar before != (match after with
    | some c => isWordChar c
    | none => false)

/-- Matches `[-…]{1,256}\.[a-zA-Z0-9()]{1,6}\b([-…]*)$` against `l`
(backtracking expressed as an existential over the two split points). -/
def urlRegexTail (l : List Char) : Bool :=
  (List.range 257).any (fun i =>
    decide (1 ≤ i) && decide (i + 1 ≤ l.length) &&
    (l.take i).all urlClassA && (l.get? i == some '.') &&
    (List.range 7).any (fun j =>
      decide (1 ≤ j) && decide (i + 1 + j ≤ l.length) &&
      ((l.drop (i + 1)).take j).all urlClassB &&
      (match l.get? (i + j) with
       | some b => wordBoundary b (l.get? (i + 1 + j))
       | none => false) &&
      (l.drop (i + 1 + j)).all urlClassC))

/-- `URL_REGEX.test(url)` for
`^https?:\/\/(www\.)?[-a-zA-Z0-9@:%._\+~#=]{1,256}\.[a-zA-Z0-9()]{1,6}\b([-a-zA-Z0-9()@:%_\+.~#?&//=]*)$`
(src/server/routes/analyze.js, line 8). -/
def urlRegexTest (url : String) : Bool :=
  let cs := url.data
  let afterScheme :=
    if "https://".data.isPrefixOf cs then some (cs.drop 8)
    else if "http://".data.isPrefixOf cs then some (cs.drop 7)
    else none
  match afterScheme with
  | none => false
  | some rest =>
    ("www.".data.isPrefixOf rest && urlRegexTail (rest.drop 4)) || urlRegexTail rest

/-- The outbound collaborator calls the route can make. -/
inductive OutCall where
  | fetch
  | generate
  | save
deriving DecidableEq

/-- The HTTP response emitted by the route. -/
inductive RouteResp where
  | err (status : Nat) (error : String) (message : String)
  | success (score : Option Int) (feedback : Json) (categories : Json)
      (recommendations : Json) (contentLength : Nat)

/-- HTTP status of a route response. -/
def RouteResp.status : RouteResp → Nat
  | .err s _ _ => s
  | .success _ _ _ _ _ => 200

/-- The catch block of the route: map a thrown error message onto a status
by substring tests, in source order. -/
def routeCatch (msg : String) : RouteResp :=
  if hasSubstr "rate limit".data msg.data then
    .err 429 "Rate limit exceeded" "Too many requests. Please wait a moment before trying again."
  else if hasSubstr "API key".data msg.data then
    .err 500 "Configuration error" "Service temporarily unavailable. Please try again later."
  else if hasSubstr "timeout".data msg.data then
    .err 504 "Request timeout" "The analysis took too long. Please try with a smaller website or try again later."
  else
    .err 500 "Analysis failed" "Unable to complete the website analysis. Please try again."

/-- `router.post('/')` of src/server/routes/analyze.js (lines 11-109), with
the two outbound collaborators supplied as oracles.  The second component
records which collaborators were invoked, in order.  Note the handler never
touches the Lead Store. -/
def analyzeRoute (body : Option String) (fetchR : Except String CrawledContent)
    (genR : Except String AnalysisResultJs) : RouteResp × List OutCall :=
  match body with
  | none =>
    (.err 400 "URL is required" "Please provide a website URL to analyze", [])
  | some url =>
    if !urlRegexTest url then
      (.err 400 "Invalid URL format"
        "Please provide a valid website URL (including http:// or https://)", [])
    else
      match fetchR with
      | .error msg => (routeCatch msg, [.fetch])
      | .ok crawlData =>
        if crawlData.content.isEmpty then
          (.err 400 "Unable to crawl website"
            "The website could not be accessed or analyzed. Please check the URL and try again.",
           [.fetch])
        else
          match genR with
          | .error msg => (routeCatch msg, [.fetch, .generate])
          | .ok a =>
            (.success a.score a.feedback (jsonOrEmptyArr a.categories)
              (jsonOrEmptyArr a.recommendations) crawlData.content.data.length,
             [.fetch, .generate])

/-! ## The admin middleware -/

/-- The admin endpoints guarded by `requireAdmin`. -/
inductive AdminEndpoint where
  | leads
  | leadsExport
  | health
deriving DecidableEq

/-- `process.env.ADMIN_TOKEN || 'growth-analyzer-admin-2024'`. -/
def adminTokenOf (env : Option String) : String :=
  jsOrStr env "growth-analyzer-admin-2024"

/-- `req.query.token || req.headers.authorization?.replace('Bearer ', '')`. -/
def suppliedToken (queryToken : Option String) (authHeader : Option String) :
    Option String :=
  match queryToken with
  | some t => if t.isEmpty then authHeader.map (fun a => String.mk (removeFirstOcc "Bearer ".data a.data)) else some t
  | none => authHeader.map (fun a => String.mk (removeFirstOcc "Bearer ".data a.data))

/-- `requireAdmin` (src/server/routes/admin.js, lines 13-24), identical for
each of the three admin endpoints: `.ok` means `next()` was called, `.error`
carries the HTTP status of the rejection. -/
def requireAdmin (_e : AdminEndpoint) (queryToken : Option String)
    (authHeader : Option String) (env : Option String) : Except Nat Unit :=
  match suppliedToken queryToken authHeader with
  | none => .error 401
  | some t =>
    if t.isEmpty then .error 401
    else if t = adminTokenOf env then .ok ()
    else .error 401

/-! ## Theorems -/

/-- Score field produced by a successful run of the try-block: always the
clamp of a ToNumber coercion. -/
theorem parseAnalysisResponseCore_score (r : String) (res : AnalysisResultJs)
    (h : parseAnalysisResponseCore r = some res) :
    ∃ v, res.score = clampScore (jsToNumber v) := by
  unfold parseAnalysisResponseCore at h
  split at h
  · exact absurd h (by simp)
  · split at h
    · exact ⟨_, by rw [← Option.some.inj h]⟩
    · exact absurd h (by simp)

/-- A clamp that yields an actual number yields one in `[0, 100]`. -/
theorem clampScore_bounds (v : Option Int) (s : Int) (h : clampScore v = some s) :
    0 ≤ s ∧ s ≤ 100 := by
  cases v with
  | none => exact absurd h (by simp [clampScore])
  | some n =>
    have hs : min 100 (max 0 n) = s := Option.some.inj h
    constructor
    · rw [← hs]; exact le_min (by norm_num) (le_max_left 0 n)
    · rw [← hs]; exact min_le_left _ _

/-- C1: a model reply on which the try-block of `parseAnalysisResponse`
throws — malformed, non-JSON, or failing the required-field validation —
produces the deterministic fallback result: score 50, exactly one category
and exactly one recommendation, with no error surfaced (the function is
total). -/
theorem parseAnalysisResponse_fallback_of_failure (r : String)
    (h : parseAnalysisResponseCore r = none) :
    parseAnalysisResponse r = fallbackAnalysisResult ∧
    fallbackAnalysisResult.score = some 50 ∧
    (∃ c, fallbackAnalysisResult.categories = Json.arr [c]) ∧
    (∃ re, fallbackAnalysisResult.recommendations = Json.arr [re]) := by
  refine ⟨?_, rfl, ⟨_, rfl⟩, ⟨_, rfl⟩⟩
  unfold parseAnalysisResponse
  rw [h]
  rfl

/-- Witness for C1 at the concrete non-JSON reply
`"I cannot analyze this website."`. -/
theorem parseAnalysisResponse_fallback_of_failure_witness :
    parseAnalysisResponseCore "I cannot analyze this website." = none ∧
    parseAnalysisResponse "I cannot analyze this website." = fallbackAnalysisResult :=
  ⟨rfl, (parseAnalysisResponse_fallback_of_failure "I cannot analyze this website." rfl).1⟩

/-- C4 as stated is false: the reply
`{"score":"high","categories":[],"recommendations":[]}` passes the truthiness
validation, and `Math.min(100, Math.max(0, "high"))` is NaN, so the returned
score is not in `[0, 100]`. -/
theorem generator_score_range_counterexample :
    scoreInRangeB (parseAnalysisResponse
      "\x7b\"score\":\"high\",\"categories\":[],\"recommendations\":[]\x7d") = false := by
  rfl

/-- C4 (amended): for every raw model reply, whenever the returned score is
an actual number — i.e. the score field was absent/falsy (fallback 50) or
coerced to a number before clamping — it satisfies `0 ≤ score ≤ 100`; a
truthy non-numeric score field instead yields NaN. -/
theorem generator_score_in_range_of_numeric (r : String) (s : Int)
    (h : (parseAnalysisResponse r).score = some s) : 0 ≤ s ∧ s ≤ 100 := by
  unfold parseAnalysisResponse at h
  cases hc : parseAnalysisResponseCore r with
  | none =>
    rw [hc] at h
    have h50 : (some 50 : Option Int) = some s := h
    have := Option.some.inj h50
    omega
  | some res =>
    rw [hc] at h
    obtain ⟨v, hv⟩ := parseAnalysisResponseCore_score r res hc
    rw [Option.getD_some] at h
    rw [hv] at h
    exact clampScore_bounds _ _ h

/-- Witness for the amended C4 at a well-formed reply with score 72. -/
theorem generator_score_in_range_witness :
    (parseAnalysisResponse
      "\x7b\"score\":72,\"categories\":[1],\"recommendations\":[1]\x7d").score = some 72 ∧
    (0 ≤ (72 : Int) ∧ (72 : Int) ≤ 100) :=
  ⟨rfl, generator_score_in_range_of_numeric
    "\x7b\"score\":72,\"categories\":[1],\"recommendations\":[1]\x7d" 72 rfl⟩

/-- C5 as stated is false: the reply
`{"score":0,"categories":[1],"recommendations":[1]}` parses as JSON with all
required fields present, yet the returned score is the fallback 50, not the
clamp of the model's score 0 (which would be 0): the `!parsedResult.score`
truthiness check treats a score of 0 as missing. -/
theorem generator_clamp_counterexample :
    (parseAnalysisResponse
      "\x7b\"score\":0,\"categories\":[1],\"recommendations\":[1]\x7d").score = some 50 ∧
    min 100 (max 0 (0 : Int)) = 0 ∧ (50 : Int) ≠ 0 := by
  refine ⟨rfl, by norm_num, by norm_num⟩

/-- C5 (amended): for every model reply that parses as JSON with the
required fields *truthy* — in particular with a nonzero numeric score — the
returned score equals the model's score clamped into `[0, 100]`; a numeric
score of exactly 0 is treated as a missing field and yields the fallback
score 50 instead. -/
theorem generator_clamps_truthy_numeric_score (r : String) (j : Json) (n : Int)
    (hj : responseJson r = some j)
    (hs : getField j "score" = some (Json.num n)) (hn : n ≠ 0)
    (hc : jsTruthyOpt (getField j "categories") = true)
    (hrec : jsTruthyOpt (getField j "recommendations") = true) :
    (parseAnalysisResponse r).score = some (min 100 (max 0 n)) := by
  unfold parseAnalysisResponse parseAnalysisResponseCore
  rw [hj]
  simp only [hs, hc, hrec]
  simp [jsTruthyOpt, jsTruthy, hn, clampScore, jsToNumber, jsToNumberJ]

/-- Witness for the amended C5 at a reply whose score 150 clamps to 100. -/
theorem generator_clamps_truthy_numeric_score_witness :
    (parseAnalysisResponse
      "\x7b\"score\":150,\"categories\":[1],\"recommendations\":[1]\x7d").score =
      some (min 100 (max 0 (150 : Int))) ∧
    min 100 (max 0 (150 : Int)) = 100 :=
  ⟨generator_clamps_truthy_numeric_score
      "\x7b\"score\":150,\"categories\":[1],\"recommendations\":[1]\x7d"
      (Json.obj [("score", Json.num 150), ("categories", Json.arr [Json.num 1]),
        ("recommendations", Json.arr [Json.num 1])])
      150 rfl rfl (by norm_num) rfl rfl,
   by norm_num⟩

/-- Head of a collapse pass that starts inside a whitespace run is never
whitespace (the run is swallowed before anything is emitted). -/
theorem collapseWsGo_head_true (l : List Char) :
    ∀ c, (collapseWsGo true l).head? = some c → jsWhitespace c = false := by
  induction l with
  | nil => intro c h; simp [collapseWsGo] at h
  | cons a t ih =>
    intro c h
    by_cases ha : jsWhitespace a = true
    · simp only [collapseWsGo, ha, if_true] at h
      exact ih c h
    · simp only [collapseWsGo, ha, if_false, Bool.false_eq_true] at h
      rw [List.head?_cons] at h
      cases h
      simpa using ha

/-- A whitespace-collapse pass never emits two consecutive spaces. -/
theorem collapseWsGo_chain (l : List Char) :
    ∀ b, List.Chain' notTwoSpaces (collapseWsGo b l) := by
  induction l with
  | nil => intro b; simp [collapseWsGo]
  | cons a t ih =>
    intro b
    by_cases ha : jsWhitespace a = true
    · cases b with
      | true => simpa [collapseWsGo, ha] using ih true
      | false =>
        have hgoal : collapseWsGo false (a :: t) = ' ' :: collapseWsGo true t := by
          simp [collapseWsGo, ha]
        rw [hgoal, List.chain'_cons']
        refine ⟨?_, ih true⟩
        intro y hy
        have := collapseWsGo_head_true t y hy
        intro hcon
        rw [hcon.2] at this
        simp [jsWhitespace] at this
    · have hgoal : collapseWsGo b (a :: t) = a :: collapseWsGo false t := by
        cases b <;> simp [collapseWsGo, ha]
      rw [hgoal, List.chain'_cons']
      refine ⟨?_, ih false⟩
      intro y hy
      intro hcon
      rw [hcon.1] at ha
      simp [jsWhitespace] at ha

/-- Every character a collapse pass emits is the space it substitutes for a
whitespace run, or a non-whitespace character of the input. -/
theorem mem_collapseWsGo (l : List Char) :
    ∀ b c, c ∈ collapseWsGo b l → c = ' ' ∨ (c ∈ l ∧ jsWhitespace c = false) := by
  induction l with
  | nil => intro b c h; simp [collapseWsGo] at h
  | cons a t ih =>
    intro b c h
    by_cases ha : jsWhitespace a = true
    · cases b with
      | true =>
        simp only [collapseWsGo, ha, if_true] at h
        rcases ih true c h with h1 | h2
        · exact Or.inl h1
        · exact Or.inr ⟨List.mem_cons_of_mem a h2.1, h2.2⟩
      | false =>
        have heq : collapseWsGo false (a :: t) = ' ' :: collapseWsGo true t := by
          simp [collapseWsGo, ha]
        rw [heq] at h
        rcases List.mem_cons.mp h with h1 | h1
        · exact Or.inl h1
        · rcases ih true c h1 with h2 | h2
          · exact Or.inl h2
          · exact Or.inr ⟨List.mem_cons_of_mem a h2.1, h2.2⟩
    · have heq : collapseWsGo b (a :: t) = a :: collapseWsGo false t := by
        cases b <;> simp [collapseWsGo, ha]
      rw [heq] at h
      rcases List.mem_cons.mp h with h1 | h1
      · subst h1; right; exact ⟨List.mem_cons_self _ _, by simpa using ha⟩
      · rcases ih false c h1 with h2 | h2
        · exact Or.inl h2
        · exact Or.inr ⟨List.mem_cons_of_mem a h2.1, h2.2⟩

/-- Trailing-drop yields an initial segment of its input. -/
theorem dropWhileEnd_prefix (p : Char → Bool) (l : List Char) :
    dropWhileEnd p l <+: l := by
  induction l with
  | nil => simp [dropWhileEnd]
  | cons c t ih =>
    simp only [dropWhileEnd]
    split
    · exact List.nil_prefix
    · obtain ⟨u, hu⟩ := ih
      exact ⟨u, by simp [hu]⟩

/-- Trimming yields a contiguous segment of its input. -/
theorem jsTrim_contiguous (l : List Char) : jsTrim l <:+: l := by
  unfold jsTrim
  have h1 : dropWhileEnd jsWhitespace (l.dropWhile jsWhitespace) <+: l.dropWhile jsWhitespace :=
    dropWhileEnd_prefix _ _
  have h2 : l.dropWhile jsWhitespace <:+ l := List.dropWhile_suffix _
  exact h1.isInfix.trans h2.isInfix

/-- C7 as stated is false: control characters are stripped only *after*
whitespace runs are collapsed, so `"a \x01 b"` cleans to `"a  b"`, which has
two consecutive spaces. -/
theorem cleanContent_double_space_counterexample :
    cleanContent "a \x01 b" = "a  b" ∧
    ¬ List.Chain' notTwoSpaces (cleanContent "a \x01 b").data := by
  refine ⟨rfl, ?_⟩
  intro h
  rw [show (cleanContent "a \x01 b").data = ['a', ' ', ' ', 'b'] from rfl] at h
  rcases List.chain'_cons.mp h with ⟨_, h2⟩
  rcases List.chain'_cons.mp h2 with ⟨hr, _⟩
  exact hr ⟨rfl, rfl⟩

/-- C7 (amended): for every input, the cleaned content contains no control
characters and is at most 50,000 characters long; and provided every control
character of the input is itself JS whitespace (in particular for inputs
without control characters), the cleaned content also has no two consecutive
spaces.  (A non-whitespace control character leaves a double space behind
when it is deleted from between two collapsed runs.) -/
theorem cleanContent_props (s : String) :
    (∀ c ∈ (cleanContent s).data, isCtlChar c = false) ∧
    (cleanContent s).data.length ≤ 50000 ∧
    ((∀ c ∈ s.data, isCtlChar c = false ∨ jsWhitespace c = true) →
      List.Chain' notTwoSpaces (cleanContent s).data) := by
  by_cases he : s.data.isEmpty
  · simp [cleanContent, he]
  · have hdata : (cleanContent s).data =
        (jsTrim ((collapseWs s.data).filter (fun c => !isCtlChar c))).take 50000 := by
      simp [cleanContent, he]
    set L1 := (collapseWs s.data).filter (fun c => !isCtlChar c) with hL1
    have hsub : (cleanContent s).data ⊆ L1 := by
      rw [hdata]
      intro c hc
      have h1 : c ∈ jsTrim L1 := (List.take_prefix _ _).subset hc
      exact (jsTrim_contiguous L1).subset h1
    refine ⟨?_, ?_, ?_⟩
    · intro c hc
      have := List.of_mem_filter (hsub hc)
      simpa using this
    · rw [hdata]; exact List.length_take_le _ _
    · intro hctl
      have hall : ∀ c ∈ collapseWs s.data, (fun c => !isCtlChar c) c = true := by
        intro c hc
        rcases mem_collapseWsGo s.data false c hc with h1 | h2
        · subst h1; simp [isCtlChar]
        · rcases hctl c h2.1 with h3 | h3
          · simpa using h3
          · rw [h3] at h2; exact absurd h2.2 (by simp)
      have hL1eq : L1 = collapseWs s.data := by
        rw [hL1]; exact List.filter_eq_self.mpr hall
      have hchain : List.Chain' notTwoSpaces L1 := by
        rw [hL1eq]; exact collapseWsGo_chain s.data false
      have hchain2 : List.Chain' notTwoSpaces (jsTrim L1) :=
        hchain.infix (jsTrim_contiguous L1)
      rw [hdata]
      exact hchain2.prefix (List.take_prefix _ _)

/-- Witness for the amended C7 at a control-free input with repeated
whitespace. -/
theorem cleanContent_props_witness :
    (∀ c ∈ (cleanContent "  hello   world  ").data, isCtlChar c = false) ∧
    List.Chain' notTwoSpaces (cleanContent "  hello   world  ").data :=
  ⟨(cleanContent_props "  hello   world  ").1,
   (cleanContent_props "  hello   world  ").2.2 (by decide)⟩

/-- A string-pattern replace whose pattern heads the input drops exactly the
pattern. -/
theorem removeFirstOcc_of_isPrefixOf (pat l : List Char) (hne : pat ≠ [])
    (h : pat.isPrefixOf l = true) : removeFirstOcc pat l = l.drop pat.length := by
  cases l with
  | nil =>
    cases pat with
    | nil => exact absurd rfl hne
    | cons p ps => simp [List.isPrefixOf] at h
  | cons c t =>
    unfold removeFirstOcc
    rw [if_pos h]

/-- A string-pattern replace without an occurrence is the identity. -/
theorem removeFirstOcc_of_no_substr (pat : List Char) :
    ∀ l, hasSubstr pat l = false → removeFirstOcc pat l = l := by
  intro l
  induction l with
  | nil => intro _; rfl
  | cons c t ih =>
    intro h
    unfold hasSubstr at h
    rw [Bool.or_eq_false_iff] at h
    unfold removeFirstOcc
    rw [if_neg (by simp [h.1]), ih h.2]

/-- A nonempty pattern heading a list occurs in it. -/
theorem isPrefixOf_hasSubstr (pat l : List Char)
    (h : pat.isPrefixOf l = true) : hasSubstr pat l = true := by
  cases l with
  | nil =>
    cases pat with
    | nil => rfl
    | cons p ps => simp [List.isPrefixOf] at h
  | cons c t => unfold hasSubstr; rw [h]; rfl

/-- C8 as stated is false: `hostname.replace('www.', '')` removes the
*first occurrence* of `"www."` anywhere in the host, not a leading label:
`https://awww.com` has host `awww.com` with no leading `www.` label, yet
`extractDomain` returns `acom`. -/
theorem extractDomain_counterexample :
    parseURLHost "https://awww.com" = some "awww.com" ∧
    extractDomain "https://awww.com" = "acom" ∧
    specLeadingWwwStrip "awww.com" = "awww.com" ∧
    ("acom" : String) ≠ "awww.com" := by
  refine ⟨rfl, rfl, rfl, by decide⟩

/-- C8 (amended): for a URL whose host parses, `extractDomain` removes the
first occurrence of `"www."` from the host; this equals stripping a leading
`www.` label whenever `www.` occurs only as a leading prefix (or not at
all).  For a string that fails URL parsing it returns, without raising, the
scheme-and-`www.`-stripped text before the first `/`. -/
theorem extractDomain_spec (url : String) :
    (∀ h, parseURLHost url = some h →
      ("www.".data.isPrefixOf h.data = true ∨ hasSubstr "www.".data h.data = false) →
      extractDomain url = specLeadingWwwStrip h) ∧
    (parseURLHost url = none → extractDomain url = specFallbackDomain url) := by
  constructor
  · intro h hp hcond
    have hext : extractDomain url = String.mk (removeFirstOcc "www.".data h.data) := by
      unfold extractDomain
      rw [hp]
    rw [hext]
    unfold specLeadingWwwStrip
    rcases hcond with hpre | hno
    · rw [if_pos hpre]
      rw [removeFirstOcc_of_isPrefixOf "www.".data h.data (by decide) hpre]
      rfl
    · have hnpre : "www.".data.isPrefixOf h.data = false := by
        cases hiso : "www.".data.isPrefixOf h.data
        · rfl
        · rw [isPrefixOf_hasSubstr _ _ hiso] at hno; cases hno
      rw [if_neg (by simp [hnpre]), removeFirstOcc_of_no_substr _ _ hno]
  · intro hn
    have hext : extractDomain url =
        String.mk ((stripSchemeWww url.data).takeWhile (fun c => c ≠ '/')) := by
      unfold extractDomain
      rw [hn]
    rw [hext]
    rfl

/-- Witness for the amended C8: the spec's own example URL, and a malformed
scheme-less string. -/
theorem extractDomain_spec_witness :
    extractDomain "https://www.example.com/page?x=1" = specLeadingWwwStrip "www.example.com" ∧
    specLeadingWwwStrip "www.example.com" = "example.com" ∧
    extractDomain "example.com/page" = specFallbackDomain "example.com/page" ∧
    specFallbackDomain "example.com/page" = "example.com" :=
  ⟨(extractDomain_spec "https://www.example.com/page?x=1").1 "www.example.com" rfl
      (Or.inl (by decide)),
   rfl,
   (extractDomain_spec "example.com/page").2 rfl,
   rfl⟩

/-- C9: on an upstream success (HTTP ok, `success` flag set, document
present), `crawlWebsite` throws the insufficient-content error exactly when
the cleaned extracted content is shorter than 100 characters, and otherwise
returns the `CrawledContent` built from the extraction. -/
theorem crawlWebsite_insufficient_iff (url : String) (resp : FcResponse) (doc : FcDoc)
    (hok : resp.ok = true) (hsucc : resp.success = true) (hdata : resp.data = some doc) :
    (crawlWebsite url resp = .error insufficientContentMsg ↔
      (extractContent doc).data.length < 100) ∧
    (100 ≤ (extractContent doc).data.length →
      ∃ c, crawlWebsite url resp = .ok c ∧ c.content = extractContent doc) := by
  have hred : crawlWebsite url resp =
      (if (extractContent doc).data.isEmpty ∨ (extractContent doc).data.length < 100 then
        Except.error insufficientContentMsg
      else
        Except.ok { url := url
                    content := extractContent doc
                    title := jsOrStr doc.title "Unknown Title"
                    description := jsOrStr doc.description ""
                    statusCode := jsOrNat doc.statusCode 200
                    contentLength := (extractContent doc).data.length }) := by
    unfold crawlWebsite
    rw [hok, hdata, hsucc]
    simp
  rw [hred]
  by_cases hlen : (extractContent doc).data.length < 100
  · have hguard : ((extractContent doc).data.isEmpty ∨ (extractContent doc).data.length < 100) :=
      Or.inr hlen
    rw [if_pos hguard]
    refine ⟨⟨fun _ => hlen, fun _ => rfl⟩, fun hge => absurd hlen (by omega)⟩
  · have hguard : ¬((extractContent doc).data.isEmpty = true ∨
        (extractContent doc).data.length < 100) := by
      intro h
      rcases h with h | h
      · rw [List.isEmpty_iff] at h
        apply hlen
        rw [h]
        norm_num
      · exact hlen h
    rw [if_neg hguard]
    refine ⟨⟨fun h => absurd h (by simp), fun h => absurd h hlen⟩, fun _ => ⟨_, rfl, rfl⟩⟩

/-- Witness for C9 at a successful upstream reply whose markdown is only 11
characters long. -/
theorem crawlWebsite_insufficient_iff_witness :
    crawlWebsite "https://example.com"
      ⟨true, 200, none, true,
        some ⟨some "Short page.", none, none, none, some "T", some "", some 200⟩⟩
      = .error insufficientContentMsg :=
  (crawlWebsite_insufficient_iff "https://example.com"
    ⟨true, 200, none, true,
      some ⟨some "Short page.", none, none, none, some "T", some "", some 200⟩⟩
    ⟨some "Short page.", none, none, none, some "T", some "", some 200⟩
    rfl rfl rfl).1.mpr (by decide)

/-- C6: a request whose `url` is missing or fails the URL regex is answered
with HTTP 400 before any collaborator is invoked: the recorded outbound-call
list is empty, so neither the Fetcher nor the Generator runs. -/
theorem analyzeRoute_invalid_url_no_calls (body : Option String)
    (fetchR : Except String CrawledContent) (genR : Except String AnalysisResultJs)
    (h : match body with
      | none => True
      | some u => urlRegexTest u = false) :
    (analyzeRoute body fetchR genR).1.status = 400 ∧
    (analyzeRoute body fetchR genR).2 = [] := by
  cases body with
  | none => exact ⟨rfl, rfl⟩
  | some u =>
    have hu : urlRegexTest u = false := h
    simp only [analyzeRoute, hu]
    exact ⟨rfl, rfl⟩

/-- Witness for C6 at the scheme-less request body `example.com`. -/
theorem analyzeRoute_invalid_url_no_calls_witness :
    (analyzeRoute (some "example.com") (.error "x") (.error "x")).1.status = 400 ∧
    (analyzeRoute (some "example.com") (.error "x") (.error "x")).2 = [] :=
  analyzeRoute_invalid_url_no_calls (some "example.com") (.error "x") (.error "x") rfl

/-- C2 evaluated at its failing input: with a valid URL, a successful fetch
and a successful generation, the route responds HTTP 200 — but the recorded
outbound calls are exactly Fetcher then Generator: `saveWebsiteSubmission`
is never requested, although the Lead Store and its best-effort `save` (which
returns null on failure, see `saveWebsiteSubmission`) exist in the codebase. -/
theorem analyzeRoute_success_never_saves :
    ((analyzeRoute (some "https://example.com")
        (.ok ⟨"https://example.com", "Plenty of page content here.", "Example", "", 200, 28⟩)
        (.ok ⟨some 72, .str "Good", .str "Good", .arr [], .arr []⟩)).1.status = 200) ∧
    ((analyzeRoute (some "https://example.com")
        (.ok ⟨"https://example.com", "Plenty of page content here.", "Example", "", 200, 28⟩)
        (.ok ⟨some 72, .str "Good", .str "Good", .arr [], .arr []⟩)).2
      = [OutCall.fetch, OutCall.generate]) ∧
    OutCall.save ∉ ((analyzeRoute (some "https://example.com")
        (.ok ⟨"https://example.com", "Plenty of page content here.", "Example", "", 200, 28⟩)
        (.ok ⟨some 72, .str "Good", .str "Good", .arr [], .arr []⟩)).2) := by
  refine ⟨rfl, rfl, by decide⟩

/-- The configured admin token is never the empty string: either the
environment value is nonempty or the nonempty default is used. -/
theorem adminTokenOf_not_empty (env : Option String) :
    (adminTokenOf env).isEmpty = false := by
  cases env with
  | none => rfl
  | some s =>
    show (if s.isEmpty = true then "growth-analyzer-admin-2024" else s).isEmpty = false
    by_cases hs : s.isEmpty = true
    · rw [if_pos hs]; rfl
    · rw [if_neg hs]
      exact Bool.eq_false_iff.mpr hs

/-- C10: for each admin endpoint, the gate passes control on exactly when
the supplied token (query parameter, else bearer-stripped authorization
header) equals the configured admin token; with the environment variable
unset the default `growth-analyzer-admin-2024` is that token; every other
outcome is an HTTP 401 rejection. -/
theorem requireAdmin_grant_iff (e : AdminEndpoint) (q a env : Option String) :
    (requireAdmin e q a env = .ok () ↔ suppliedToken q a = some (adminTokenOf env)) ∧
    (env = none → adminTokenOf env = "growth-analyzer-admin-2024") ∧
    (requireAdmin e q a env ≠ .ok () → requireAdmin e q a env = .error 401) := by
  refine ⟨?_, ?_, ?_⟩
  · unfold requireAdmin
    cases st : suppliedToken q a with
    | none =>
      simp only []
      constructor
      · intro h; cases h
      · intro h; cases h
    | some t =>
      simp only []
      by_cases ht : t.isEmpty = true
      · rw [if_pos ht]
        constructor
        · intro h; cases h
        · intro h
          have := Option.some.inj h
          rw [this] at ht
          rw [adminTokenOf_not_empty env] at ht
          cases ht
      · rw [if_neg ht]
        by_cases heq : t = adminTokenOf env
        · rw [if_pos heq]
          simp [heq]
        · rw [if_neg heq]
          constructor
          · intro h; cases h
          · intro h
            exact absurd (Option.some.inj h) heq
  · intro h; rw [h]; rfl
  · unfold requireAdmin
    cases st : suppliedToken q a with
    | none => intro _; rfl
    | some t =>
      simp only []
      by_cases ht : t.isEmpty = true
      · rw [if_pos ht]; intro _; rfl
      · rw [if_neg ht]
        by_cases heq : t = adminTokenOf env
        · rw [if_pos heq]; intro h; exact absurd rfl h
        · rw [if_neg heq]; intro _; rfl

/-- Witness for C10: the default token grants access when the environment
variable is unset, via the query parameter. -/
theorem requireAdmin_grant_iff_witness :
    requireAdmin AdminEndpoint.leads (some "growth-analyzer-admin-2024") none none =
      .ok () ∧
    adminTokenOf none = "growth-analyzer-admin-2024" :=
  ⟨(requireAdmin_grant_iff AdminEndpoint.leads (some "growth-analyzer-admin-2024")
      none none).1.mpr rfl,
   (requireAdmin_grant_iff AdminEndpoint.leads (some "growth-analyzer-admin-2024")
      none none).2.1 rfl⟩
/-- The same-day UPDATE leaves the unique-index key `(url, DATE(created_at))`
of every row unchanged. -/
theorem rowMatches_update (sub : SubmissionData) (now : DbTime) (u : String) (d : Nat)
    (r : DbRow) :
    rowMatches u d (if rowMatches sub.url now.day r then
      { r with
        growth_score := sub.analysis.score
        analysis_summary := summaryValue sub.analysis
        analysis_categories := categoriesValue sub.analysis
        recommendations := recommendationsValue sub.analysis
        content_length := contentLengthValue sub
        analyzed_at := now }
      else r) = rowMatches u d r := by
  by_cases hp : rowMatches sub.url now.day r = true
  · rw [if_pos hp]
    simp [rowMatches]
  · rw [if_neg (by simp [hp])]

/-- After a save, exactly one row exists for the submitted URL on the save's
day (insert when absent, in-place update when present). -/
theorem countRows_save_self (st : DbState) (sub : SubmissionData) (now : DbTime)
    (hinv : dbInvariant st.rows) :
    countRows ((saveWebsiteSubmission st sub now).1).rows sub.url now.day = 1 := by
  unfold saveWebsiteSubmission
  by_cases hc : st.rows.any (rowMatches sub.url now.day) = true
  · rw [if_pos hc]
    simp only []
    unfold countRows
    rw [List.countP_map]
    have hfun : (rowMatches sub.url now.day ∘ fun r =>
        if rowMatches sub.url now.day r then
          { r with
            growth_score := sub.analysis.score
            analysis_summary := summaryValue sub.analysis
            analysis_categories := categoriesValue sub.analysis
            recommendations := recommendationsValue sub.analysis
            content_length := contentLengthValue sub
            analyzed_at := now }
        else r) = rowMatches sub.url now.day := by
      funext r
      exact rowMatches_update sub now sub.url now.day r
    rw [hfun]
    have hpos : 0 < st.rows.countP (rowMatches sub.url now.day) := by
      rw [List.countP_pos_iff]
      exact List.any_eq_true.mp hc
    have hle : st.rows.countP (rowMatches sub.url now.day) ≤ 1 := hinv sub.url now.day
    omega
  · rw [if_neg hc]
    simp only []
    unfold countRows
    rw [List.countP_append]
    have h0 : st.rows.countP (rowMatches sub.url now.day) = 0 := by
      rw [List.countP_eq_zero]
      intro a ha hpa
      exact hc (List.any_eq_true.mpr ⟨a, ha, hpa⟩)
    rw [h0]
    simp [rowMatches]

/-- A save does not affect the row count of any other `(url, day)` pair. -/
theorem countRows_save_other (st : DbState) (sub : SubmissionData) (now : DbTime)
    (u : String) (d : Nat) (h : ¬(u = sub.url ∧ d = now.day)) :
    countRows ((saveWebsiteSubmission st sub now).1).rows u d = countRows st.rows u d := by
  unfold saveWebsiteSubmission
  by_cases hc : st.rows.any (rowMatches sub.url now.day) = true
  · rw [if_pos hc]
    simp only []
    unfold countRows
    rw [List.countP_map]
    congr 1
    funext r
    exact rowMatches_update sub now u d r
  · rw [if_neg hc]
    simp only []
    unfold countRows
    rw [List.countP_append]
    have hnew : (rowMatches u d
        { id := st.nextId
          url := sub.url
          domain := extractDomain sub.url
          growth_score := sub.analysis.score
          analysis_summary := summaryValue sub.analysis
          analysis_categories := categoriesValue sub.analysis
          recommendations := recommendationsValue sub.analysis
          content_length := contentLengthValue sub
          created_at := now
          analyzed_at := now } : Bool) = false := by
      simp only [rowMatches]
      simp only [decide_eq_false_iff_not]
      intro hcon
      exact h ⟨hcon.1.symm, hcon.2.symm⟩
    simp [hnew]

/-- The per-day uniqueness invariant is preserved by `saveWebsiteSubmission`. -/
theorem dbInvariant_save (st : DbState) (sub : SubmissionData) (now : DbTime)
    (hinv : dbInvariant st.rows) :
    dbInvariant ((saveWebsiteSubmission st sub now).1).rows := by
  intro u d
  by_cases h : u = sub.url ∧ d = now.day
  · rw [h.1, h.2]
    rw [countRows_save_self st sub now hinv]
  · rw [countRows_save_other st sub now u d h]
    exact hinv u d

/-- When the save takes the UPDATE branch, every row of the submitted
`(url, day)` pair carries the new submission's mutable analysis fields and
timestamp afterwards. -/
theorem save_update_fields (st : DbState) (sub : SubmissionData) (now : DbTime)
    (hc : st.rows.any (rowMatches sub.url now.day) = true) :
    ∀ r ∈ ((saveWebsiteSubmission st sub now).1).rows,
      rowMatches sub.url now.day r = true →
        r.growth_score = sub.analysis.score ∧
        r.analysis_summary = summaryValue sub.analysis ∧
        r.analysis_categories = categoriesValue sub.analysis ∧
        r.recommendations = recommendationsValue sub.analysis ∧
        r.analyzed_at = now := by
  unfold saveWebsiteSubmission
  rw [if_pos hc]
  simp only []
  intro r hr hmatch
  obtain ⟨r0, hr0mem, hr0⟩ := List.mem_map.mp hr
  by_cases hp : rowMatches sub.url now.day r0 = true
  · rw [if_pos hp] at hr0
    rw [← hr0]
    exact ⟨rfl, rfl, rfl, rfl, rfl⟩
  · rw [if_neg (by simp [hp])] at hr0
    rw [← hr0] at hmatch
    exact absurd hmatch (by simp [hp])

/-- C3: starting from any store state satisfying the unique-index invariant,
saving the same URL twice on the same calendar day leaves exactly one row
for that `(url, day)` pair, and that row's mutable analysis fields (score,
summary, categories, recommendations, analyzed_at) are the second call's
values; saving the same URL on two different calendar days leaves exactly
one row for each of the two `(url, day)` pairs — two distinct rows. -/
theorem saveWebsiteSubmission_upsert (st : DbState) (s1 s2 : SubmissionData)
    (t1 t2 : DbTime) (hinv : dbInvariant st.rows) (hurl : s2.url = s1.url) :
    (t2.day = t1.day →
      countRows ((saveWebsiteSubmission (saveWebsiteSubmission st s1 t1).1 s2 t2).1).rows
        s1.url t1.day = 1 ∧
      (∀ r ∈ ((saveWebsiteSubmission (saveWebsiteSubmission st s1 t1).1 s2 t2).1).rows,
        rowMatches s1.url t1.day r = true →
          r.growth_score = s2.analysis.score ∧
          r.analysis_summary = summaryValue s2.analysis ∧
          r.analysis_categories = categoriesValue s2.analysis ∧
          r.recommendations = recommendationsValue s2.analysis ∧
          r.analyzed_at = t2)) ∧
    (t2.day ≠ t1.day →
      countRows ((saveWebsiteSubmission (saveWebsiteSubmission st s1 t1).1 s2 t2).1).rows
        s1.url t1.day = 1 ∧
      countRows ((saveWebsiteSubmission (saveWebsiteSubmission st s1 t1).1 s2 t2).1).rows
        s1.url t2.day = 1) := by
  have h1 : countRows ((saveWebsiteSubmission st s1 t1).1).rows s1.url t1.day = 1 :=
    countRows_save_self st s1 t1 hinv
  have hinv1 : dbInvariant ((saveWebsiteSubmission st s1 t1).1).rows :=
    dbInvariant_save st s1 t1 hinv
  constructor
  · intro hd
    have h2 : countRows
        ((saveWebsiteSubmission (saveWebsiteSubmission st s1 t1).1 s2 t2).1).rows
        s2.url t2.day = 1 :=
      countRows_save_self _ s2 t2 hinv1
    rw [hurl, hd] at h2
    refine ⟨h2, ?_⟩
    have hany : ((saveWebsiteSubmission st s1 t1).1).rows.any
        (rowMatches s2.url t2.day) = true := by
      rw [hurl, hd, List.any_eq_true]
      unfold countRows at h1
      exact List.countP_pos_iff.mp (by omega)
    have hfields := save_update_fields _ s2 t2 hany
    intro r hr hm
    have hm2 : rowMatches s2.url t2.day r = true := by rw [hurl, hd]; exact hm
    exact hfields r hr hm2
  · intro hd
    constructor
    · rw [countRows_save_other _ s2 t2 s1.url t1.day
        (fun hcon => hd (hcon.2.symm))]
      exact h1
    · have h3 := countRows_save_self _ s2 t2 hinv1
      rw [hurl] at h3
      exact h3

/-- Witness for C3: two same-day saves of `https://www.a.com` into an empty
store leave exactly one row for that URL and day. -/
theorem saveWebsiteSubmission_upsert_witness :
    countRows ((saveWebsiteSubmission (saveWebsiteSubmission ⟨[], 0⟩
        ⟨"https://www.a.com", ⟨some 70, some "s1", none, none, none⟩, some 5⟩ ⟨3, 0⟩).1
        ⟨"https://www.a.com", ⟨some 90, some "s2", none, none, none⟩, some 9⟩ ⟨3, 7⟩).1).rows
      "https://www.a.com" 3 = 1 :=
  ((saveWebsiteSubmission_upsert ⟨[], 0⟩
      ⟨"https://www.a.com", ⟨some 70, some "s1", none, none, none⟩, some 5⟩
      ⟨"https://www.a.com", ⟨some 90, some "s2", none, none, none⟩, some 9⟩
      ⟨3, 0⟩ ⟨3, 7⟩ (fun u d => by simp [countRows]) rfl).1 rfl).1
